import Mathlib

/-!
Verification development for `gst-mjpg`, an MJPEG-over-HTTP server.

The core under verification is the subscriber-lifecycle / frame fan-out layer
in `src/frames.rs` (struct `Frames` with `stream`, `start`,
`subscriber_stopped`, and the `FrameStream` wrapper with its `Drop` and
`Stream` impls) together with the HTTP handlers in `src/http.rs`
(`handle_request` routing, `handle_stream` part construction,
`handle_snapshot`, `server_error`).

The shared mutable state of `Frames` (`FramesInner { count: u64, sender }`,
guarded by one mutex) is embedded as an explicit state record `St`, and every
lock-protected critical section of the source becomes one atomic transition of
a step function: `Frames::stream` and `Frames::subscriber_stopped` each run
entirely under `inner.lock()`, so each is a single `Op` here, and a frame
broadcast by the forwarding task (the closure spawned in `Frames::start`) is a
third kind of `Op`.  The tokio `broadcast` channel is modelled by the pair
(`epoch`, `sent`): `epoch` identifies the current `Sender` (a fresh channel is
created at every 0→1 subscriber transition, `frames.rs` line 47), and `sent`
counts the messages sent on that channel so far.  A receiver is a `Handle`
`(epoch, pos)`: `broadcast::channel` returns a receiver of the new, empty
channel (`pos = 0`), while `Sender::subscribe` returns a receiver positioned
at the current end of the channel (`pos = sent`), which sees only messages
sent after it was created.
-/

namespace GstMjpg

/-- `2^64`: the modulus of Rust's `u64`, the type of `FramesInner::count`. -/
def U64MOD : Nat := 2 ^ 64

/-- A broadcast receiver, as returned by `Frames::stream`: the identity of the
channel it reads from (`epoch`) and the cursor position it starts at (`pos`).
It can receive exactly the messages sent on channel `epoch` at indices
`≥ pos`. -/
structure Handle where
  epoch : Nat
  pos : Nat
deriving DecidableEq, Repr

/-- The operations that touch the shared `FramesInner` state:
`subscribe` is one execution of `Frames::stream` (the Boolean is the outcome
of the `video.start()` call made on a 0→1 transition, cf. `Frames::start`,
`frames.rs` line 67); `release` is one execution of
`Frames::subscriber_stopped`; `frame` is the forwarding task broadcasting one
captured frame (`sender.send`, `frames.rs` line 87). -/
inductive Op where
  | subscribe (startOk : Bool)
  | release
  | frame
deriving DecidableEq, Repr

/-- The shared state of the broadcaster.
`count` is `FramesInner::count : u64`.
`epoch` identifies the current broadcast channel (`FramesInner::sender`);
it is bumped whenever `Frames::stream` replaces the channel.
`sent` is the number of messages sent on the current channel.
`forwarding` records whether a forwarding task (spawned by `Frames::start`
on a successful `video.start()`) is feeding the current channel. -/
structure St where
  count : Nat
  epoch : Nat
  sent : Nat
  forwarding : Bool
deriving DecidableEq, Repr

/-- The externally visible effects of one operation: whether `video.start()`
was invoked, whether `video.stop()` was invoked, and the receiver handed to a
subscriber (for `subscribe` operations). -/
structure Eff where
  calledStart : Bool
  calledStop : Bool
  sub : Option Handle
deriving DecidableEq, Repr

/-- One atomic transition of the broadcaster, transcribing `src/frames.rs`:

* `subscribe ok` is `Frames::stream` (lines 42–61): if `count == 0`, a fresh
  channel is created (`epoch + 1`, `sent = 0`), `count` is set to 1, and
  `self.start(&inner)` is called — which always invokes `video.start()` and
  spawns the forwarding task only when that succeeds (`ok`), cf. lines 65–92;
  the caller gets a receiver of the fresh channel.  Otherwise `count` is
  incremented (`u64` arithmetic) and the caller gets a receiver obtained from
  `inner.sender.subscribe()`, positioned at the current end of the channel.
* `release` is `Frames::subscriber_stopped` (lines 96–107):
  `count = count.saturating_sub(1)` — which is exactly `Nat` subtraction —
  and when the resulting count is 0, `video.stop()` is invoked.
* `frame` is the forwarding task sending one frame on the channel it was
  spawned with; it exists only while `forwarding` holds. -/
def step (s : St) : Op → St × Eff
  | Op.subscribe ok =>
      if s.count = 0 then
        (⟨1, s.epoch + 1, 0, ok⟩,
         ⟨true, false, some ⟨s.epoch + 1, 0⟩⟩)
      else
        ({ s with count := (s.count + 1) % U64MOD },
         ⟨false, false, some ⟨s.epoch, s.sent⟩⟩)
  | Op.release =>
      ({ s with count := s.count - 1 },
       ⟨false, decide (s.count - 1 = 0), none⟩)
  | Op.frame =>
      (if s.forwarding then { s with sent := s.sent + 1 } else s,
       ⟨false, false, none⟩)

/-- Run a sequence of operations from a state. -/
def run (s : St) : List Op → St
  | [] => s
  | op :: rest => run (step s op).1 rest

/-- How many operations of a trace invoked `video.start()`. -/
def startsIn (s : St) : List Op → Nat
  | [] => 0
  | op :: rest =>
      (if (step s op).2.calledStart then 1 else 0) + startsIn (step s op).1 rest

/-- How many operations of a trace invoked `video.stop()`. -/
def stopsIn (s : St) : List Op → Nat
  | [] => 0
  | op :: rest =>
      (if (step s op).2.calledStop then 1 else 0) + stopsIn (step s op).1 rest

/-- How many steps of a trace take the subscriber count from positive to
zero.  Each such step ends one maximal contiguous interval during which the
count is `> 0`. -/
def downXings (s : St) : List Op → Nat
  | [] => 0
  | op :: rest =>
      (if 0 < s.count ∧ (step s op).1.count = 0 then 1 else 0)
      + downXings (step s op).1 rest

/-- Number of `subscribe` operations in a trace. -/
def nSubs : List Op → Nat
  | [] => 0
  | Op.subscribe _ :: rest => nSubs rest + 1
  | Op.release :: rest => nSubs rest
  | Op.frame :: rest => nSubs rest

/-- Well-formed interleavings: every `release` is the drop of a distinct
subscription handle that exists at that point (the program only calls
`subscriber_stopped` from `Drop for FrameStream`, and every `FrameStream` was
created by an earlier `Frames::stream` call).  `c` is the budget of
still-undropped handles. -/
def wf : Nat → List Op → Bool
  | _, [] => true
  | c, Op.subscribe _ :: rest => wf (c + 1) rest
  | c, Op.release :: rest => decide (0 < c) && wf (c - 1) rest
  | c, Op.frame :: rest => wf c rest

/-- Number of frames delivered to receiver `h` during a trace: a `frame`
operation reaches `h` exactly when a forwarding task is active, the frame goes
to `h`'s channel, and `h`'s cursor is at or before the frame's index. -/
def deliveredTo (h : Handle) (s : St) : List Op → Nat
  | [] => 0
  | op :: rest =>
      (if op = Op.frame ∧ s.forwarding = true ∧ s.epoch = h.epoch ∧ h.pos ≤ s.sent
       then 1 else 0)
      + deliveredTo h (step s op).1 rest

/-- The frame broadcast as message `i` of channel `e` can reach receiver `h`
iff it is on `h`'s channel at or after `h`'s starting cursor. -/
def deliverable (h : Handle) (e i : Nat) : Prop := e = h.epoch ∧ h.pos ≤ i

/-- `Drop for FrameStream` (`frames.rs` lines 116–122) spawns one task which
performs exactly one `subscriber_stopped` call; every way a subscription ends
(explicit drop, the consumer abandoning the stream, the owning connection
closing) runs this single `Drop` impl exactly once. -/
def frameStreamDrop : List Op := [Op.release]

/-!
`FrameStream::poll_next` (`frames.rs` lines 124–144).  The inner
`BroadcastStream` yields `Poll<Option<Result<T, BroadcastStreamRecvError>>>`;
each element of the list below is the result of one poll of the inner stream,
in the order the retry loop would observe them.  The `Nat` in the `error` case
is the number of skipped messages reported by `Lagged(n)`.
-/

/-- One result of polling the inner `BroadcastStream`. -/
inductive InnerPoll (α : Type) where
  | readySome (r : Except Nat α)
  | readyNone
  | pending
deriving Repr

/-- What `FrameStream::poll_next` returns to its caller: `Poll<Option<T>>` —
note the item type carries no error case at all. -/
inductive PollRes (α : Type) where
  | ready (a : Option α)
  | pending
deriving Repr

/-- Transcription of `FrameStream::poll_next`: `Ready(Some(Ok(v)))` is passed
through; `Ready(Some(Err(lag)))` logs a warning and recursively re-polls;
`Ready(None)` (channel closed) is passed through as normal end of sequence;
`Pending` is passed through.  The argument lists the successive inner poll
results consumed by the retry recursion (an empty list means the inner stream
produced no result, i.e. the poll is still outstanding). -/
def pollNext {α : Type} : List (InnerPoll α) → PollRes α
  | [] => PollRes.pending
  | InnerPoll.readySome (Except.ok a) :: _ => PollRes.ready (some a)
  | InnerPoll.readySome (Except.error _) :: rest => pollNext rest
  | InnerPoll.readyNone :: _ => PollRes.ready none
  | InnerPoll.pending :: _ => PollRes.pending

/-!
The HTTP layer, `src/http.rs`.  Frame payloads (`Bytes`) are byte lists;
an HTTP body is either raw frame bytes or UTF-8 text.
-/

/-- Rust `std::time::Duration` (as produced from the frame's `dts`):
whole seconds and the sub-second nanoseconds (`< 10^9`). -/
structure Duration where
  secs : Nat
  nanos : Nat
deriving DecidableEq, Repr

/-- `Duration::as_secs`. -/
def Duration.as_secs (d : Duration) : Nat := d.secs

/-- `Duration::subsec_micros`. -/
def Duration.subsec_micros (d : Duration) : Nat := d.nanos / 1000

/-- The `X-Timestamp` header value built in `handle_stream` (`http.rs` line
69): `format!("{}.{:.06}", ts.as_secs(), ts.subsec_micros())`.  In Rust's
format syntax `.06` is a *precision* of 6, and precision is ignored by the
`Display` implementations of the integer types, so the produced string is the
plain decimal rendering of both numbers with no zero-padding (padding to
width 6 would have been `{:06}`). -/
def xTimestampValue (d : Duration) : String :=
  toString d.as_secs ++ "." ++ toString d.subsec_micros

/-- The headers of one multipart part. -/
structure Part where
  contentType : String
  xTimestamp : Option String
deriving DecidableEq, Repr

/-- The part-construction closure of `handle_stream` (`http.rs` lines 63–74):
every part gets `Content-Type: image/jpeg`, and an `X-Timestamp` header
exactly when the frame carries a timestamp. -/
def partForFrame (ts : Option Duration) : Part :=
  ⟨"image/jpeg", ts.map xTimestampValue⟩

/-- An HTTP body: raw frame bytes, or text. -/
inductive HBody where
  | bytes (b : List Nat)
  | text (s : String)
deriving DecidableEq, Repr

/-- An HTTP response: status code, optional `Content-Type` header, body. -/
structure Response where
  status : Nat
  contentType : Option String
  body : HBody
deriving DecidableEq, Repr

/-- `server_error` (`http.rs` lines 118–124): a 500 `text/plain` response
whose body is `format!("server error: {e}")`. -/
def server_error (e : String) : Response :=
  ⟨500, some "text/plain", HBody.text ("server error: " ++ e)⟩

/-- `handle_snapshot` (`http.rs` lines 90–101): subscribe, take the first item
of the frame sequence; if there is none, answer with
`server_error("no frames from video source")`, otherwise answer 200 with
`Content-Type: image/jpeg` and the frame's bytes as the body.  The argument is
the sequence of `(bytes, timestamp)` items the fresh `FrameStream` yields. -/
def handle_snapshot (frames : List (List Nat × Option Duration)) : Response :=
  match frames with
  | [] => server_error "no frames from video source"
  | (frame, _ts) :: _ => ⟨200, some "image/jpeg", HBody.bytes frame⟩

/-- The broadcaster operations performed by `handle_snapshot`: it subscribes
(`frames.stream().await`), reads at most one item, and the temporary
`FrameStream` is dropped — scheduling its one `subscriber_stopped` — before
the handler returns, on both the frame and the no-frame paths. -/
def snapshotSessionOps (ok : Bool) : List Op := [Op.subscribe ok, Op.release]

/-- The configured endpoint paths (`http.rs` `struct Paths`). -/
structure Paths where
  stream : String
  snapshot : String
deriving DecidableEq, Repr

/-- Rust's `Debug` escaping of one character inside a `str`, as used by
`format!("{path:?}")`: `"` and `\` are backslash-escaped, `\n`/`\r`/`\t`
become two-character escapes, and other non-printable characters are rendered
as `\u{hex}` escapes.  (For characters outside printable ASCII Rust consults
unicode printability tables; HTTP request targets are ASCII-only, so the model
is exact on every string reachable here.) -/
def escapeDebugChar (c : Char) : List Char :=
  if c = '"' then ['\\', '"']
  else if c = '\\' then ['\\', '\\']
  else if c = '\n' then ['\\', 'n']
  else if c = '\r' then ['\\', 'r']
  else if c = '\t' then ['\\', 't']
  else if c.toNat < 32 ∨ 127 ≤ c.toNat then
    ['\\', 'u', Char.ofNat 123] ++ Nat.toDigits 16 c.toNat ++ [Char.ofNat 125]
  else [c]

/-- `format!("{s:?}")` for a string: the `Debug`-escaped contents wrapped in
double quotes. -/
def rustDebugStr (s : String) : String :=
  ⟨'"' :: (s.data.map escapeDebugChar).flatten ++ ['"']⟩

/-- Characters on which `Debug` escaping is the identity: printable ASCII
other than `"` and `\`.  Every character of a hyper request target satisfies
this. -/
def plainChar (c : Char) : Prop :=
  32 ≤ c.toNat ∧ c.toNat < 127 ∧ c ≠ '"' ∧ c ≠ '\\'

instance (c : Char) : Decidable (plainChar c) := by
  unfold plainChar
  infer_instance

/-- Where `handle_request` sends a request: one of the three handlers, or the
404 response it builds itself. -/
inductive RouteResult where
  | index
  | stream
  | snapshot
  | notFound (resp : Response)
deriving DecidableEq, Repr

/-- The routing of `handle_request` (`http.rs` lines 35–58): the request's
path-and-query string is compared, by exact string equality and in this
order, against `"/"`, `paths.stream` and `paths.snapshot`; anything else gets
a 404 whose body is `format!("nothing configured for the path {path:?}")`
(no `Content-Type` header is set on that response). -/
def handle_request (paths : Paths) (path : String) : RouteResult :=
  if path = "/" then RouteResult.index
  else if path = paths.stream then RouteResult.stream
  else if path = paths.snapshot then RouteResult.snapshot
  else RouteResult.notFound
    ⟨404, none, HBody.text ("nothing configured for the path " ++ rustDebugStr path)⟩

/-!
Helper lemmas about the broadcaster transition system.
-/

theorem run_append (s : St) (l1 l2 : List Op) :
    run s (l1 ++ l2) = run (run s l1) l2 := by
  induction l1 generalizing s with
  | nil => rfl
  | cons op rest ih => simp [run, ih]

/-- One step never decreases the channel epoch, and while the epoch is
unchanged the send position never decreases. -/
theorem step_mono (s : St) (op : Op) :
    s.epoch < ((step s op).1).epoch
    ∨ (((step s op).1).epoch = s.epoch ∧ s.sent ≤ ((step s op).1).sent) := by
  cases op with
  | subscribe ok =>
    by_cases h : s.count = 0 <;> simp [step, h]
  | release => right; simp [step]
  | frame =>
    by_cases h : s.forwarding = true <;> simp [step, h]

/-- Monotonicity of `step_mono` over a whole trace. -/
theorem run_mono (s : St) (tr : List Op) :
    s.epoch < (run s tr).epoch
    ∨ ((run s tr).epoch = s.epoch ∧ s.sent ≤ (run s tr).sent) := by
  induction tr generalizing s with
  | nil => right; exact ⟨rfl, Nat.le_refl _⟩
  | cons op rest ih =>
    have h1 := step_mono s op
    have h2 := ih (step s op).1
    simp only [run]
    rcases h1 with h1 | ⟨h1a, h1b⟩
    · rcases h2 with h2 | ⟨h2a, h2b⟩
      · left; omega
      · left; omega
    · rcases h2 with h2 | ⟨h2a, h2b⟩
      · left; omega
      · right; exact ⟨by omega, by omega⟩

/-- A state whose current channel `e` has no forwarding task stays that way:
either the epoch is still `e` with no forwarding, or the epoch has moved past
`e` (epochs only grow, and a forwarding task is only created together with a
fresh channel). -/
theorem quiet_step (e : Nat) (s : St) (op : Op)
    (h : (s.epoch = e ∧ s.forwarding = false) ∨ e < s.epoch) :
    ((step s op).1.epoch = e ∧ (step s op).1.forwarding = false)
    ∨ e < (step s op).1.epoch := by
  cases op with
  | subscribe ok =>
    by_cases hc : s.count = 0
    · right
      simp only [step, hc, if_pos]
      rcases h with ⟨h1, _⟩ | h1 <;> omega
    · simpa [step, hc] using h
  | release => simpa [step] using h
  | frame =>
    by_cases hf : s.forwarding = true
    · rcases h with ⟨h1, h2⟩ | h1
      · rw [hf] at h2; exact absurd h2 (by simp)
      · right; simpa [step, hf] using h1
    · simpa [step, hf] using h
/-- No frame is ever delivered to a receiver of a channel that has no
forwarding task (and never will, its epoch being over or inert). -/
theorem quiet_deliveredTo (hd : Handle) (s : St) (ops : List Op)
    (h : (s.epoch = hd.epoch ∧ s.forwarding = false) ∨ hd.epoch < s.epoch) :
    deliveredTo hd s ops = 0 := by
  induction ops generalizing s with
  | nil => rfl
  | cons op rest ih =>
    have hrec := ih (step s op).1 (quiet_step hd.epoch s op h)
    rcases h with ⟨h1, h2⟩ | h1
    · simp [deliveredTo, h2, hrec]
    · have hne : s.epoch ≠ hd.epoch := by omega
      simp [deliveredTo, hne, hrec]

/-- Under a well-formed trace, `video.stop()` is invoked exactly at the steps
where the subscriber count goes from positive to zero. -/
theorem stops_eq_downXings (tr : List Op) : ∀ s : St, wf s.count tr = true →
    s.count + nSubs tr < U64MOD → stopsIn s tr = downXings s tr := by
  induction tr with
  | nil => intro s _ _; rfl
  | cons op rest ih =>
    intro s hwf hb
    cases op with
    | subscribe ok =>
      by_cases hc : s.count = 0
      · have hwf' : wf 1 rest = true := by
          have := hwf; simp only [wf, hc] at this; simpa using this
        have hb' : (1 : Nat) + nSubs rest < U64MOD := by
          simp only [nSubs] at hb; omega
        have hrec := ih ⟨1, s.epoch + 1, 0, ok⟩ hwf' hb'
        simp [stopsIn, downXings, step, hc, hrec]
      · have hmod : (s.count + 1) % U64MOD = s.count + 1 := by
          apply Nat.mod_eq_of_lt
          simp only [nSubs] at hb; omega
        have hwf' : wf (s.count + 1) rest = true := by
          simpa [wf] using hwf
        have hb' : (s.count + 1) + nSubs rest < U64MOD := by
          simp only [nSubs] at hb; omega
        have hrec := ih { s with count := (s.count + 1) % U64MOD }
          (by simpa [hmod] using hwf') (by simpa [hmod] using hb')
        have hpos : ¬ (s.count + 1) % U64MOD = 0 := by omega
        simp [stopsIn, downXings, step, hc, hrec, hpos]
    | release =>
      have hwf0 : 0 < s.count ∧ wf (s.count - 1) rest = true := by
        simpa [wf, Bool.and_eq_true] using hwf
      have hb' : (s.count - 1) + nSubs rest < U64MOD := by
        simp only [nSubs] at hb; omega
      have hrec := ih { s with count := s.count - 1 } hwf0.2 hb'
      simp [stopsIn, downXings, step, hrec, hwf0.1]
    | frame =>
      have hb' : s.count + nSubs rest < U64MOD := by
        simp only [nSubs] at hb; omega
      have hwf' : wf s.count rest = true := by simpa [wf] using hwf
      have hcount : ((step s Op.frame).1).count = s.count := by
        by_cases hf : s.forwarding = true <;> simp [step, hf]
      have hrec := ih (step s Op.frame).1 (by rw [hcount]; exact hwf')
        (by rw [hcount]; exact hb')
      have hcond : ¬ (0 < s.count ∧ ((step s Op.frame).1).count = 0) := by
        rw [hcount]; omega
      have hstop : ((step s Op.frame).2).calledStop = false := rfl
      simp only [stopsIn, downXings, if_neg hcond, hstop]
      simpa using hrec

/-- From any state with at least one subscriber, a run of further `subscribe`
operations never invokes `video.start()` and increments the count once per
call. -/
theorem startsIn_pos_subs (oks : List Bool) : ∀ s : St, 1 ≤ s.count →
    s.count + oks.length < U64MOD →
    startsIn s (oks.map Op.subscribe) = 0
    ∧ (run s (oks.map Op.subscribe)).count = s.count + oks.length := by
  induction oks with
  | nil => intro s _ _; exact ⟨rfl, by simp [run]⟩
  | cons ok rest ih =>
    intro s h hb
    have hc : ¬ s.count = 0 := by omega
    have hmod : (s.count + 1) % U64MOD = s.count + 1 := by
      apply Nat.mod_eq_of_lt
      simp only [List.length_cons] at hb; omega
    have hrec := ih { s with count := (s.count + 1) % U64MOD }
      (by simp [hmod]) (by simp only [List.length_cons] at hb; simp [hmod]; omega)
    refine ⟨?_, ?_⟩
    · simp [startsIn, step, hc, hrec.1]
    · simp only [List.map_cons, run, step, if_neg hc]
      rw [hrec.2]
      simp [hmod]; omega

/-- Escaping is the identity on a printable ASCII character other than the
quote and the backslash. -/
theorem escapeDebugChar_plain (c : Char) (h : plainChar c) :
    escapeDebugChar c = [c] := by
  obtain ⟨ha, hb, hq, hbs⟩ := h
  have hn : c ≠ Char.ofNat 10 := by
    intro e; rw [e] at ha; exact absurd ha (by decide)
  have hr : c ≠ Char.ofNat 13 := by
    intro e; rw [e] at ha; exact absurd ha (by decide)
  have ht : c ≠ Char.ofNat 9 := by
    intro e; rw [e] at ha; exact absurd ha (by decide)
  have hrange : ¬ (c.toNat < 32 ∨ 127 ≤ c.toNat) := by omega
  have hn' : c ≠ '\n' := hn
  have hr' : c ≠ '\r' := hr
  have ht' : c ≠ '\t' := ht
  simp [escapeDebugChar, hq, hbs, hn', hr', ht', hrange]

/-- Escaping is the identity on a string of plain characters. -/
theorem escape_plain_flatten (l : List Char) (h : ∀ c ∈ l, plainChar c) :
    (l.map escapeDebugChar).flatten = l := by
  induction l with
  | nil => rfl
  | cons c rest ih =>
    simp only [List.map_cons, List.flatten_cons]
    rw [escapeDebugChar_plain c (h c (by simp)),
      ih (fun d hd => h d (by simp [hd]))]
    rfl

/-!
The claims.
-/

/-- Claim C1: for every sequence of `Frames::stream` calls beginning with
subscriber count 0, `video.start()` is invoked exactly once, namely by the
call that transitions the count from 0 to 1; every subscribe call that
observes a count `≥ 1` only increments the count and attaches a new receiver
at the current end of the current channel, and does not invoke `start()`.
The `oks.length < 2^64` bound reflects the `u64` subscriber counter (one
increment per still-live handle). -/
theorem C1_start_once (s : St) (oks : List Bool) (h0 : s.count = 0)
    (hne : oks ≠ []) (hb : oks.length < U64MOD) :
    startsIn s (oks.map Op.subscribe) = 1
    ∧ (∀ (t : St) (ok : Bool), t.count = 0 →
        (step t (Op.subscribe ok)).2.calledStart = true
        ∧ (step t (Op.subscribe ok)).1.count = 1)
    ∧ (∀ (t : St) (ok : Bool), 1 ≤ t.count → t.count + 1 < U64MOD →
        (step t (Op.subscribe ok)).2.calledStart = false
        ∧ (step t (Op.subscribe ok)).1.count = t.count + 1
        ∧ (step t (Op.subscribe ok)).1.epoch = t.epoch
        ∧ (step t (Op.subscribe ok)).2.sub = some ⟨t.epoch, t.sent⟩) := by
  refine ⟨?_, ?_, ?_⟩
  · cases oks with
    | nil => exact absurd rfl hne
    | cons ok rest =>
      have hsub := startsIn_pos_subs rest ⟨1, s.epoch + 1, 0, ok⟩ (by simp)
        (by simp only [List.length_cons] at hb; simp; omega)
      simp [startsIn, step, h0, hsub.1]
  · intro t ok ht
    simp [step, ht]
  · intro t ok ht htb
    have hc : ¬ t.count = 0 := by omega
    have hmod : (t.count + 1) % U64MOD = t.count + 1 := Nat.mod_eq_of_lt htb
    simp [step, hc, hmod]

/-- Witness for C1 at a concrete input: two subscribers from idle, one
`start()`. -/
theorem C1_start_once_witness :
    startsIn ⟨0, 0, 0, false⟩ ([true, true].map Op.subscribe) = 1 :=
  (C1_start_once ⟨0, 0, 0, false⟩ [true, true] rfl (by decide) (by decide)).1

/-- Claim C2: over every interleaving of subscribe and release operations in
which each release is the drop of a previously created handle (`wf`; the
program only releases through `Drop for FrameStream`), `video.stop()` is
invoked exactly at the steps that take the subscriber count from positive to
zero — i.e. exactly once per maximal contiguous interval with count `> 0`,
each such interval ending at its positive-to-zero step — and a release that
leaves the count positive performs no source interaction at all; moreover
every `stop()` comes from a release whose decrement leaves the count exactly
0. -/
theorem C2_stop_on_last_release (s : St) (tr : List Op)
    (hwf : wf s.count tr = true) (hb : s.count + nSubs tr < U64MOD) :
    stopsIn s tr = downXings s tr
    ∧ (∀ t : St, (step t Op.release).1.count ≠ 0 →
        (step t Op.release).2.calledStop = false
        ∧ (step t Op.release).2.calledStart = false)
    ∧ (∀ t : St, (step t Op.release).2.calledStop = true →
        (step t Op.release).1.count = 0) := by
  refine ⟨stops_eq_downXings tr s hwf hb, ?_, ?_⟩
  · intro t ht
    have hne : ¬ (t.count - 1 = 0) := by simpa [step] using ht
    exact ⟨by simp [step, hne], by simp [step]⟩
  · intro t ht
    have h0 : t.count - 1 = 0 := by simpa [step] using ht
    simp [step, h0]

/-- Witness for C2 at a concrete input: one subscribe then one release, one
`stop()` ending the single positive interval. -/
theorem C2_stop_on_last_release_witness :
    stopsIn ⟨0, 0, 0, false⟩ [Op.subscribe true, Op.release]
      = downXings ⟨0, 0, 0, false⟩ [Op.subscribe true, Op.release] :=
  (C2_stop_on_last_release ⟨0, 0, 0, false⟩ [Op.subscribe true, Op.release]
    (by decide) (by decide)).1

/-- Claim C3 (code bug): the claim says the `X-Timestamp` value is the whole
seconds, a dot, and the microseconds zero-padded to exactly 6 digits, so that
0 s + 33000 µs yields `0.033000`.  The code (`http.rs` line 69) writes
`format!("{}.{:.06}", secs, micros)`, and `.06` is a precision — ignored by
integer `Display` — not a width, so the code actually produces `0.33000`
(and, read as a decimal, a timestamp ten times too large). -/
theorem C3_timestamp_unpadded :
    xTimestampValue ⟨0, 33000000⟩ = "0.33000"
    ∧ xTimestampValue ⟨0, 33000000⟩ ≠ "0.033000"
    ∧ (partForFrame (some ⟨0, 33000000⟩)).xTimestamp = some "0.33000" :=
  ⟨rfl, by decide, rfl⟩

/-- Claim C4: no frame broadcast before a subscription's receiver was created
is ever delivered to it.  A frame broadcast when the state was `sF` is
message `sF.sent` of channel `sF.epoch`; any receiver handed out by a later
`Frames::stream` call either belongs to a strictly newer channel (0→1 path)
or starts at a cursor strictly past that message (late-joiner path). -/
theorem C4_no_stale_delivery (s0 : St) (pre mid : List Op) (ok : Bool)
    (hfwd : (run s0 pre).forwarding = true) :
    ∀ hdl : Handle,
      (step (run s0 (pre ++ Op.frame :: mid)) (Op.subscribe ok)).2.sub = some hdl →
      ¬ deliverable hdl (run s0 pre).epoch (run s0 pre).sent := by
  intro hdl hsub hdel
  obtain ⟨hde, hdp⟩ := hdl
  obtain ⟨he0, hpos0⟩ := hdel
  have he : (run s0 pre).epoch = hde := he0
  have hpos : hdp ≤ (run s0 pre).sent := hpos0
  clear he0 hpos0
  set sF := run s0 pre with hsF
  set sS := run s0 (pre ++ Op.frame :: mid) with hsS
  have hsplit : sS = run ⟨sF.count, sF.epoch, sF.sent + 1, sF.forwarding⟩ mid := by
    rw [hsS, run_append]
    have hstep : (step sF Op.frame).1
        = ⟨sF.count, sF.epoch, sF.sent + 1, sF.forwarding⟩ := by
      simp [step, hfwd]
    rw [run, hstep]
  have hmono : sF.epoch < sS.epoch
      ∨ (sS.epoch = sF.epoch ∧ sF.sent + 1 ≤ sS.sent) := by
    have h := run_mono ⟨sF.count, sF.epoch, sF.sent + 1, sF.forwarding⟩ mid
    rw [← hsplit] at h
    exact h
  by_cases hc : sS.count = 0
  · simp [step, hc] at hsub
    obtain ⟨h1, _⟩ := hsub
    rcases hmono with h | ⟨ha, _⟩ <;> omega
  · simp [step, hc] at hsub
    obtain ⟨h1, h2⟩ := hsub
    rcases hmono with h | ⟨ha, hb2⟩ <;> omega

/-- Witness for C4 at a concrete input: a frame broadcast right before a
second subscriber joins is not deliverable to that subscriber. -/
theorem C4_no_stale_delivery_witness : ¬ deliverable ⟨1, 1⟩ 1 0 :=
  C4_no_stale_delivery ⟨0, 0, 0, false⟩ [Op.subscribe true] [] true rfl ⟨1, 1⟩ rfl

/-- Claim C5: `FrameStream::poll_next` never surfaces an error — its item
type `PollRes` has no error case: a lag result from the inner stream is
transparently consumed and the read retried on the remaining inner results,
a closed channel becomes the normal end-of-sequence `none`, a value is passed
through, and every outcome is a value, end-of-sequence, or pending. -/
theorem C5_reads_never_error :
    (∀ (α : Type) (n : Nat) (rest : List (InnerPoll α)),
        pollNext (InnerPoll.readySome (Except.error n) :: rest) = pollNext rest)
    ∧ (∀ (α : Type) (rest : List (InnerPoll α)),
        pollNext (InnerPoll.readyNone :: rest) = PollRes.ready none)
    ∧ (∀ (α : Type) (a : α) (rest : List (InnerPoll α)),
        pollNext (InnerPoll.readySome (Except.ok a) :: rest)
          = PollRes.ready (some a))
    ∧ (∀ (α : Type) (l : List (InnerPoll α)),
        pollNext l = PollRes.pending ∨ ∃ o : Option α, pollNext l = PollRes.ready o) := by
  refine ⟨fun α n rest => rfl, fun α rest => rfl, fun α a rest => rfl, fun α l => ?_⟩
  cases h : pollNext l with
  | ready o => exact Or.inr ⟨o, rfl⟩
  | pending => exact Or.inl rfl

/-- Claim C6: the snapshot handler inspects only the first item of its fresh
subscription's sequence, answers 200 `image/jpeg` with that frame's raw bytes,
answers the 500 "no frames from video source" server error when the sequence
ends before any frame, and its subscription is released before it returns on
both paths, so the subscriber count is back to its old value. -/
theorem C6_snapshot_first_frame (f : List Nat) (ts : Option Duration)
    (rest rest2 : List (List Nat × Option Duration)) (s : St) (ok : Bool)
    (hb : s.count + 1 < U64MOD) :
    handle_snapshot ((f, ts) :: rest) = ⟨200, some "image/jpeg", HBody.bytes f⟩
    ∧ handle_snapshot ((f, ts) :: rest) = handle_snapshot ((f, ts) :: rest2)
    ∧ handle_snapshot [] =
        ⟨500, some "text/plain", HBody.text "server error: no frames from video source"⟩
    ∧ (run s (snapshotSessionOps ok)).count = s.count := by
  refine ⟨rfl, rfl, rfl, ?_⟩
  by_cases hc : s.count = 0
  · simp [run, snapshotSessionOps, step, hc]
  · have hmod : (s.count + 1) % U64MOD = s.count + 1 := Nat.mod_eq_of_lt (by omega)
    simp [run, snapshotSessionOps, step, hc, hmod]

/-- Witness for C6 at a concrete input. -/
theorem C6_snapshot_first_frame_witness :
    handle_snapshot [([7, 7], none)] = ⟨200, some "image/jpeg", HBody.bytes [7, 7]⟩
    ∧ (run ⟨0, 0, 0, false⟩ (snapshotSessionOps true)).count = 0 := by
  have h := C6_snapshot_first_frame [7, 7] none [] [] ⟨0, 0, 0, false⟩ true (by decide)
  exact ⟨h.1, h.2.2.2⟩

/-- Claim C7: if `video.start()` fails during the 0→1 subscribe, the failure
is only logged: the subscribe still hands back a receiver (no synchronous
error), no forwarding task is begun for the new channel, and no frame is ever
delivered to that receiver under any continuation of the run. -/
theorem C7_start_failure_silent (s : St) (ops : List Op) (h0 : s.count = 0) :
    (step s (Op.subscribe false)).2.calledStart = true
    ∧ (step s (Op.subscribe false)).2.sub = some ⟨s.epoch + 1, 0⟩
    ∧ (step s (Op.subscribe false)).1.forwarding = false
    ∧ deliveredTo ⟨s.epoch + 1, 0⟩ (step s (Op.subscribe false)).1 ops = 0 := by
  refine ⟨by simp [step, h0], by simp [step, h0], by simp [step, h0], ?_⟩
  apply quiet_deliveredTo
  left
  constructor <;> simp [step, h0]

/-- Witness for C7 at a concrete input: after a failed start, later traffic
(frames of a later epoch included) never reaches the stale handle. -/
theorem C7_start_failure_silent_witness :
    deliveredTo ⟨1, 0⟩ (step ⟨0, 0, 0, false⟩ (Op.subscribe false)).1
      [Op.frame, Op.release, Op.subscribe true, Op.frame] = 0 :=
  (C7_start_failure_silent ⟨0, 0, 0, false⟩
    [Op.frame, Op.release, Op.subscribe true, Op.frame] rfl).2.2.2

/-- Claim C8: dropping a `FrameStream` schedules exactly one
`subscriber_stopped` call (`frameStreamDrop` is that one-element schedule,
shared by every release path since they all run the single `Drop` impl), and
each such call decrements a positive subscriber count by exactly one. -/
theorem C8_drop_decrements_once (s : St) (h : 1 ≤ s.count) :
    frameStreamDrop.length = 1
    ∧ (run s frameStreamDrop).count + 1 = s.count
    ∧ (∀ t : St, 1 ≤ t.count → (step t Op.release).1.count + 1 = t.count) := by
  refine ⟨rfl, ?_, fun t ht => ?_⟩
  · simp only [run, frameStreamDrop, step]
    omega
  · simp only [step]
    omega

/-- Witness for C8 at a concrete input. -/
theorem C8_drop_decrements_once_witness :
    (run ⟨2, 0, 0, true⟩ frameStreamDrop).count + 1 = 2 :=
  (C8_drop_decrements_once ⟨2, 0, 0, true⟩ (by decide)).2.1

/-- Claim C9: routing compares the request's path-and-query string for exact
equality against `"/"`, the configured stream path and the configured
snapshot path, in that order; any other path gets a 404 whose text body
contains the unmatched path verbatim (the path's `Debug` rendering only adds
surrounding quotes when the path is made of plain ASCII characters, which all
hyper request targets are). -/
theorem C9_exact_match_routing (paths : Paths) (p : String)
    (h1 : p ≠ "/") (h2 : p ≠ paths.stream) (h3 : p ≠ paths.snapshot)
    (hp : ∀ c ∈ p.data, plainChar c) :
    (∃ t : String,
        handle_request paths p = RouteResult.notFound ⟨404, none, HBody.text t⟩
        ∧ List.IsInfix p.data t.data)
    ∧ handle_request paths "/" = RouteResult.index
    ∧ (paths.stream ≠ "/" → handle_request paths paths.stream = RouteResult.stream)
    ∧ (paths.snapshot ≠ "/" → paths.snapshot ≠ paths.stream →
        handle_request paths paths.snapshot = RouteResult.snapshot) := by
  refine ⟨?_, ?_, ?_, ?_⟩
  · refine ⟨"nothing configured for the path " ++ rustDebugStr p, ?_, ?_⟩
    · simp [handle_request, h1, h2, h3]
    · refine ⟨"nothing configured for the path ".data ++ ['"'], ['"'], ?_⟩
      have hesc : (rustDebugStr p).data = '"' :: p.data ++ ['"'] := by
        simp [rustDebugStr, escape_plain_flatten p.data hp]
      show "nothing configured for the path ".data ++ ['"'] ++ p.data ++ ['"']
        = ("nothing configured for the path " ++ rustDebugStr p).data
      rw [String.data_append, hesc]
      simp
  · simp [handle_request]
  · intro hs
    simp [handle_request, hs]
  · intro hs1 hs2
    simp [handle_request, hs1, hs2]

/-- Witness for C9 at the concrete input of the claim: path `/bogus` against
the default paths is a 404 whose body contains `/bogus`. -/
theorem C9_exact_match_routing_witness :
    (∃ t : String,
        handle_request ⟨"/stream", "/snapshot"⟩ "/bogus"
          = RouteResult.notFound ⟨404, none, HBody.text t⟩
        ∧ List.IsInfix "/bogus".data t.data)
    ∧ handle_request ⟨"/stream", "/snapshot"⟩ "/" = RouteResult.index := by
  have h := C9_exact_match_routing ⟨"/stream", "/snapshot"⟩ "/bogus"
    (by decide) (by decide) (by decide) (by decide)
  exact ⟨h.1, h.2.1⟩

/-- Claim C10: `subscriber_stopped` decrements with `saturating_sub`, so the
count never goes below zero: from a positive count it drops by exactly one,
from zero it stays zero — and in that already-zero case the guard
`count != 0` still fails, so `video.stop()` is invoked again. -/
theorem C10_saturating_release (s : St) :
    (step s Op.release).1.count = s.count - 1
    ∧ (s.count = 0 → (step s Op.release).1.count = 0
        ∧ (step s Op.release).2.calledStop = true)
    ∧ (0 < s.count → (step s Op.release).1.count + 1 = s.count) := by
  refine ⟨rfl, fun h0 => ⟨?_, ?_⟩, fun hpos => ?_⟩
  · simp [step, h0]
  · simp [step, h0]
  · simp only [step]
    omega

/-- Witness for C10 at a concrete input: a release at count zero keeps the
count at zero and invokes `stop()` again. -/
theorem C10_saturating_release_witness :
    (step ⟨0, 4, 2, false⟩ Op.release).1.count = 0
    ∧ (step ⟨0, 4, 2, false⟩ Op.release).2.calledStop = true :=
  (C10_saturating_release ⟨0, 4, 2, false⟩).2.1 rfl

end GstMjpg
